import Mathlib

/-!
# Verification of the `ionize` Ion model

A shallow embedding of the `Ion` class of the `ionize` repository
(`ionize/Ion/__init__.py` and `ionize/Ion/ionization_fraction.py`), together
with proofs about it.

Two layers are used:

* a rational-valued layer for the constructor (`Ion.__init__` together with
  `z_sort`): validation of the charge ladder, the mobility sign correction,
  the temperature corrections and the sorting of the charge states;
* a real-valued layer for the equilibrium arithmetic (`ionization_fraction`,
  `get_Adh`), since those involve real powers `10**x` and square roots.

Modules of the repository that `Ion` calls but whose files are not part of
the source snapshot (`viscosity`, `dielectric`, `activity_coefficient`,
`Ka_eff`, `L`, `correct_pKa`) are modelled from the specification; each such
definition carries a doc comment starting with `Modelled from the spec:`.

Python-semantics details that decide claims are modelled explicitly and
faithfully: the expression `obj.z0` at `ionization_fraction.py:31,36` is an
uncalled bound method handed to `zip` (a `TypeError` on every call), reads
of the never-created `_pH`/`_I` attributes raise `AttributeError`, and the
class defines no `__eq__`, so `==` is object identity.
-/

namespace Ionize

/-! ## Rational layer: the `Ion` constructor -/

/-- Python's `math.copysign m s`: the magnitude of `m` with the sign of `s`,
over `ℚ` (no signed zero: a zero `s` counts as positive, as `copysign`
treats `+0.0`). -/
def copysignQ (m s : ℚ) : ℚ := if s < 0 then -|m| else |m|

/-- The state of a constructed `Ion` object.  Fields mirror the attributes
set by `Ion.__init__`: `z`, `pKa`, `absolute_mobility` (the per-charge-state
vectors after temperature correction, sign correction and sorting), the
reference vectors, and the thermodynamic corrections `dH`/`dCp` (class
attributes, `None` in this snapshot).  `ctx_pH`/`ctx_I` model the transient
`_pH`/`_I` context a `Solution` may install; `warned` records whether the
mobility-sign warning was emitted.  (`actual_mobility`, always `None` at
construction, is omitted.) -/
structure PIon where
  name : String
  z : List ℤ
  pKa : List ℚ
  absolute_mobility : List ℚ
  pKa_ref : List ℚ
  absolute_mobility_ref : List ℚ
  dH : Option ℚ := none
  dCp : Option ℚ := none
  ctx_pH : Option ℚ := none
  ctx_I : Option ℚ := none
  warned : Bool := false
  deriving Repr, DecidableEq

instance {ε α : Type} [DecidableEq ε] [DecidableEq α] : DecidableEq (Except ε α) :=
  fun a b =>
    match a, b with
    | Except.ok x, Except.ok y =>
        if h : x = y then Decidable.isTrue (by rw [h])
        else Decidable.isFalse (by intro hc; cases hc; exact h rfl)
    | Except.error x, Except.error y =>
        if h : x = y then Decidable.isTrue (by rw [h])
        else Decidable.isFalse (by intro hc; cases hc; exact h rfl)
    | Except.ok _, Except.error _ => Decidable.isFalse (by intro hc; cases hc)
    | Except.error _, Except.ok _ => Decidable.isFalse (by intro hc; cases hc)

/-- Modelled from the spec: the `correct_pKa` module is absent from the
source snapshot.  Per §4.2 the temperature correction uses `dH`/`dCp`
"if supplied, else assume pKa is temperature-invariant"; this constructor
never supplies them (`dH = dCp = None`), so the corrected pKa equals the
reference pKa. -/
def correct_pKa (pKa_ref : List ℚ) : List ℚ := pKa_ref

/-- The comparison used by Python's `sorted` on `(z, pKa, mobility)`
triples: lexicographic order. -/
def tripLe (a b : ℤ × ℚ × ℚ) : Prop :=
  a.1 < b.1 ∨ (a.1 = b.1 ∧ (a.2.1 < b.2.1 ∨ (a.2.1 = b.2.1 ∧ a.2.2 ≤ b.2.2)))

instance : DecidableRel tripLe := fun a b => by unfold tripLe; infer_instance

instance : IsTotal (ℤ × ℚ × ℚ) tripLe := by
  constructor
  intro a b
  unfold tripLe
  rcases lt_trichotomy a.1 b.1 with h | h | h
  · exact Or.inl (Or.inl h)
  · rcases lt_trichotomy a.2.1 b.2.1 with h2 | h2 | h2
    · exact Or.inl (Or.inr ⟨h, Or.inl h2⟩)
    · rcases le_total a.2.2 b.2.2 with h3 | h3
      · exact Or.inl (Or.inr ⟨h, Or.inr ⟨h2, h3⟩⟩)
      · exact Or.inr (Or.inr ⟨h.symm, Or.inr ⟨h2.symm, h3⟩⟩)
    · exact Or.inr (Or.inr ⟨h.symm, Or.inl h2⟩)
  · exact Or.inr (Or.inl h)

instance : IsTrans (ℤ × ℚ × ℚ) tripLe := by
  constructor
  intro a b c hab hbc
  unfold tripLe at *
  rcases hab with h1 | ⟨e1, h1⟩
  · rcases hbc with h2 | ⟨e2, _⟩
    · exact Or.inl (h1.trans h2)
    · exact Or.inl (e2 ▸ h1)
  · rcases hbc with h2 | ⟨e2, h2⟩
    · exact Or.inl (e1 ▸ h2)
    · refine Or.inr ⟨e1.trans e2, ?_⟩
      rcases h1 with h1 | ⟨f1, h1⟩
      · rcases h2 with h2 | ⟨f2, _⟩
        · exact Or.inl (h1.trans h2)
        · exact Or.inl (f2 ▸ h1)
      · rcases h2 with h2 | ⟨f2, h2⟩
        · exact Or.inl (f1 ▸ h2)
        · exact Or.inr ⟨f1.trans f2, h1.trans h2⟩

/-- The charge-ladder completeness check of `z_sort`:
`set(range(min(z), max(z)+1)) - {0}` compared against `set(z)` by symmetric
difference, i.e. the set of charge states must equal the full integer range
`[min z, max z]` with `0` removed.  (`min`/`max` of a nonempty list equal
the min/max of its set of elements.)  An empty list has no min/max; CPython
would raise there, and the model reports failure. -/
def ladderOK (z : List ℤ) : Bool :=
  match z.min?, z.max? with
  | some zmin, some zmax => decide (z.toFinset = (Finset.Icc zmin zmax).erase 0)
  | _, _ => false

/-- Model of `Ion.z_sort`: zip `z`, `pKa`, `absolute_mobility` together,
sort by charge (Python's `sorted` on tuples: lexicographic), unzip, then
assert that no charge state is missing. -/
def z_sort (s : PIon) : Except String PIon :=
  let sortedT := List.insertionSort tripLe (s.z.zip (s.pKa.zip s.absolute_mobility))
  let z' := sortedT.map (fun t => t.1)
  let pKa' := sortedT.map (fun t => t.2.1)
  let mob' := sortedT.map (fun t => t.2.2)
  if ladderOK z' then
    Except.ok { s with z := z', pKa := pKa', absolute_mobility := mob' }
  else
    Except.error "Charge states missing."

/-- Model of `Ion.__init__`.  `nu` models the external `viscosity` function
(its module is absent from the source snapshot; per the spec it is a
positive, monotone-decreasing function of temperature — here it is an
explicit parameter).  Steps, in source order:

1. store the reference vectors (the scalar-or-sequence coercion of the
   Python code is dropped: inputs are lists);
2. if `T == T_ref`, `pKa`/`absolute_mobility` are the reference vectors,
   otherwise `pKa = correct_pKa()` and each mobility is rescaled by
   `viscosity(T_ref)/viscosity(T)` (Walden's rule);
3. assert that `pKa` and `absolute_mobility` have the same length as `z`
   (the `z` integer check is inherent in the type here);
4. force the sign of each mobility to match the sign of its charge,
   recording the warning;
5. `z_sort`. -/
def ionInit (nu : ℚ → ℚ) (name : String) (z : List ℤ)
    (pKa_ref absolute_mobility_ref : List ℚ) (T T_ref : ℚ) :
    Except String PIon :=
  let pKa := if T = T_ref then pKa_ref else correct_pKa pKa_ref
  let mob0 := if T = T_ref then absolute_mobility_ref
    else absolute_mobility_ref.map (fun m => nu T_ref / nu T * m)
  if pKa.length ≠ z.length then
    Except.error "pKa is not the same length as z"
  else if mob0.length ≠ z.length then
    Except.error "absolute_mobility is not the same length as z"
  else
    let signsOK := (z.zip mob0).all (fun p => decide (copysignQ (p.1 : ℚ) p.2 = (p.1 : ℚ)))
    let mob := if signsOK then mob0
      else (z.zip mob0).map (fun p => copysignQ p.2 (p.1 : ℚ))
    z_sort { name := name, z := z, pKa := pKa, absolute_mobility := mob,
             pKa_ref := pKa_ref, absolute_mobility_ref := absolute_mobility_ref,
             warned := !signsOK }

instance : Std.Antisymm (fun (x₁ x₂ : ℤ) => x₁ ≤ x₂) :=
  ⟨fun {_ _} h₁ h₂ => le_antisymm h₁ h₂⟩

/-! ## Real layer: activity corrections and ionization fractions

The `Ion` class attributes `_Adh = 0.5102` and `_aD = 1.5` (constants of
eqtn 6 of Bahga 2010) come from the source. -/

noncomputable section

def Adh : ℝ := 0.5102

def aD : ℝ := 1.5

/-- Modelled from the spec: the `activity_coefficient` module is absent from
the source snapshot.  Extended Debye–Hückel single-ion activity coefficient:
`log10 γ = -A z² √I / (1 + a √I)`, which is `1` at `I = 0` and at `z = 0`
(§4.1). -/
def activity_coefficient (zi : ℤ) (I : ℝ) : ℝ :=
  (10 : ℝ) ^ (-(Adh * (zi : ℝ) ^ 2 * Real.sqrt I / (1 + aD * Real.sqrt I)))

/-- The hydronium concentration computed by `ionization_fraction`:
`cH = 10**(-pH) / activity_coefficient(I, [1])[0]`. -/
def cH (pH I : ℝ) : ℝ := (10 : ℝ) ^ (-pH) / activity_coefficient 1 I

/-- The charge state adjacent to `zi` on the neutral side of the ladder. -/
def zAdj (zi : ℤ) : ℤ := if 0 < zi then zi - 1 else zi + 1

/-- Modelled from the spec: the `Ka_eff`/`correct_pKa` ionic-strength
correction, absent from the source snapshot.  Per §4.2,
`pKa(I) = pKa_ref − log10(γ(z_i, I)/γ(z_{i-1}, I))` over adjacent charge
states, and `Ka_eff = 10^(−pKa(I))`. -/
def Ka_eff (zi : ℤ) (pKa_i : ℝ) (I : ℝ) : ℝ :=
  (10 : ℝ) ^ (-(pKa_i - Real.logb 10
    (activity_coefficient zi I / activity_coefficient (zAdj zi) I)))

/-- Modelled from the spec: the `L` module is absent from the source
snapshot.  Per §4.2, `L` is the cumulative-product vector of `Ka_eff` values
anchored at the neutral state: `L[k] = ∏ Ka_eff` over the states strictly
between neutral and `k` inclusive of `k`, and `L[neutral] = 1`.  An ion's
state list pairs each non-zero charge with its reference pKa. -/
def L (states : List (ℤ × ℝ)) (zi : ℤ) (I : ℝ) : ℝ :=
  ((states.filter (fun p => decide ((0 < p.1 ∧ p.1 ≤ zi) ∨ (zi ≤ p.1 ∧ p.1 < 0)))).map
    (fun p => Ka_eff p.1 p.2 I)).prod

/-- The value the `z0()` method returns: `sorted([0] + z)`, the charge
states with the neutral state inserted.  (The spec-modelled `L` uses it;
the expression `obj.z0` in `ionization_fraction.py` does NOT — it never
calls the method.  See `obj_z0`.) -/
def z0list (z : List ℤ) : List ℤ :=
  List.insertionSort (fun a b : ℤ => a ≤ b) (0 :: z)

/-- A Python value in the second operand position of `zip`: either an
iterable (here, a list of charge states) or a bound method, which is not
iterable. -/
inductive ZipOperand where
  | iterable (l : List ℤ)
  | boundMethod
  deriving Repr, DecidableEq

/-- The value of the expression `obj.z0` at `ionization_fraction.py:31,36`:
`z0` is defined as a method of `Ion` (`__init__.py`), `__init__` never
shadows it with an instance attribute, and the source does not call it
(`obj.z0`, not `obj.z0()`), so the attribute lookup yields the bound method
itself — not the list `sorted([0] + z)` the call would return. -/
def obj_z0 : ZipOperand := ZipOperand.boundMethod

/-- Python's `zip(l, a)` for these operand shapes: `zip` requires iterable
arguments and raises `TypeError` when handed a bound method. -/
def pyZip {α : Type} (l : List α) (a : ZipOperand) : Except String (List (α × ℤ)) :=
  match a with
  | ZipOperand.iterable l2 => Except.ok (l.zip l2)
  | ZipOperand.boundMethod =>
      Except.error "TypeError: zip argument 2 must support iteration"

/-- The arithmetic body of `ionization_fraction` once `pH` and `I` are
resolved, transcribed from `ionize/Ion/ionization_fraction.py`:

* `L = obj.L(I)` — the weight vector over the charge ladder (the `L` method
  is called, with parentheses);
* `cH = 10**(-pH)/obj.activity_coefficient(I, [1])[0]`;
* `i_frac_vector = [Lp * cH ** z for (Lp, z) in zip(L, obj.z0)]`;
* `denom = sum(i_frac_vector)`;
* `i_frac = [i/denom for (i, z) in zip(i_frac_vector, obj.z0) if z]`.

Both `zip`s read `obj.z0` — an uncalled bound method — so the first
comprehension raises `TypeError` on every call and no fractions are ever
returned. -/
def ionization_fraction_at (states : List (ℤ × ℝ)) (pH I : ℝ) :
    Except String (List ℝ) :=
  let Lvec := (z0list (states.map Prod.fst)).map (fun zi => L states zi I)
  let c := cH pH I
  match pyZip Lvec obj_z0 with
  | Except.error e => Except.error e
  | Except.ok pairs =>
    let ivec := pairs.map (fun p => p.1 * c ^ p.2)
    let denom := ivec.sum
    match pyZip ivec obj_z0 with
    | Except.error e => Except.error e
    | Except.ok pairs2 =>
      Except.ok ((pairs2.filter (fun p => decide (p.2 ≠ 0))).map (fun p => p.1 / denom))

/-- The value the specification's formula prescribes for
`ionization_fraction(pH, I)` (§4.2): for each non-zero charge state of
`sorted([0] + z)` in ascending order, `L[z]·cH^z / Σ_k L[k]·cH^k` with the
neutral term in the denominator sum only.  This definition follows the
spec's words and is the comparison point for the transcribed code. -/
def ionization_fraction_spec (states : List (ℤ × ℝ)) (pH I : ℝ) : List ℝ :=
  ((z0list (states.map Prod.fst)).filter (fun zi => decide (zi ≠ 0))).map
    (fun zi => L states zi I * cH pH I ^ zi /
      ((z0list (states.map Prod.fst)).map
        (fun k => L states k I * cH pH I ^ k)).sum)

open scoped Classical

/-- Resolution of the `pH` argument (`ionization_fraction.py:15-17`):
`assert obj._pH, 'requires an input pH'` then `pH = obj._pH`.  `ctx_pH`
models the `_pH` attribute a `Solution` may have installed; on a
free-standing ion the attribute was never created, and reading it raises
`AttributeError`.  When it exists, Python truthiness makes the assert fail
on the falsy value `0.0` as well. -/
def resolve_pH (ctx_pH : Option ℝ) (pHopt : Option ℝ) : Except String ℝ :=
  match pHopt with
  | some pH => Except.ok pH
  | none =>
    match ctx_pH with
    | none => Except.error "AttributeError: _pH"
    | some p =>
      if p = 0 then Except.error "AssertionError: requires an input pH"
      else Except.ok p

/-- Resolution of the `I` argument (`ionization_fraction.py:19-23`):
`I = obj._I if obj._I else 0.0` (as an if/else statement).  Reading the
never-created `_I` attribute of a free-standing ion raises
`AttributeError`; when the attribute exists, the only falsy value is `0.0`,
for which the `else` branch yields the same `0.0`, so the stored value is
used either way. -/
def resolve_I (ctx_I : Option ℝ) (Iopt : Option ℝ) : Except String ℝ :=
  match Iopt with
  | some I => Except.ok I
  | none =>
    match ctx_I with
    | none => Except.error "AttributeError: _I"
    | some i => Except.ok i

/-- Model of `ionization_fraction(obj, pH=None, I=None)` with its argument
plumbing: resolve `pH` (possibly raising), then `I` (possibly raising),
then run the body — which itself raises `TypeError` at `zip(L, obj.z0)`. -/
def ionization_fraction (states : List (ℤ × ℝ)) (ctx_pH ctx_I : Option ℝ)
    (pHopt Iopt : Option ℝ) : Except String (List ℝ) :=
  match resolve_pH ctx_pH pHopt with
  | Except.error e => Except.error e
  | Except.ok pH =>
    match resolve_I ctx_I Iopt with
    | Except.error e => Except.error e
    | Except.ok I => ionization_fraction_at states pH I

/-- Model of `Ion.get_Adh`, transcribed from the source:

    T_ref = 25
    Adh_ref = 0.5102
    d = obj.dielectric(T)
    d_ref = obj.dielectric(T)
    Adh = Adh_ref * ((T_ref+273.15)*d_ref/(T+273.15)/d)**(-1.5)

Note that `d_ref` is assigned `dielectric(T)` — not `dielectric(T_ref)`.
The external dielectric model is a parameter (its module is absent from the
source snapshot). -/
def get_Adh (dielectric : ℝ → ℝ) (T : ℝ) : ℝ :=
  let T_ref : ℝ := 25
  let Adh_ref : ℝ := 0.5102
  let d := dielectric T
  let d_ref := dielectric T
  Adh_ref * ((T_ref + 273.15) * d_ref / (T + 273.15) / d) ^ (-(1.5 : ℝ))

/-- The Debye–Hückel coefficient as the specification words it (§4.1):
`A(T) = A_ref * ((T_ref+273.15)·ε_ref / ((T+273.15)·ε(T)))^(3/2)` with
`ε_ref` the dielectric constant at `T_ref = 25`.  This is the comparison
definition for the refinement claim about `get_Adh`. -/
def debye_huckel_A (dielectric : ℝ → ℝ) (T : ℝ) : ℝ :=
  0.5102 * ((25 + 273.15) * dielectric 25 / ((T + 273.15) * dielectric T)) ^ (1.5 : ℝ)

/-- Modelled from the spec: the `dielectric` module is absent from the
source snapshot, and §6 fixes only that the solvent dielectric constant is
monotone decreasing in `T`; a representative affine decreasing model is
used to evaluate concrete temperatures (`78` at `25 °C`, `68` at `50 °C`). -/
def dielectric_model : ℝ → ℝ := fun t => 88 - (2 / 5) * t

end

/-! ## Equality and attribute assignment -/

/-- The reference data of an ion: name, charge states, reference pKa,
reference mobility and thermodynamic corrections — everything equality is
sensitive to. -/
def strip (i : PIon) : String × List ℤ × List ℚ × List ℚ × Option ℚ × Option ℚ :=
  (i.name, i.z, i.pKa_ref, i.absolute_mobility_ref, i.dH, i.dCp)

/-- A constructed Python object: an identity (allocation address) together
with the `Ion` state.  The snapshot class defines no `__eq__` (and imports
none), so Python's default `==` compares identity, never the fields. -/
structure PyObjRef where
  addr : ℕ
  val : PIon
  deriving Repr, DecidableEq

/-- Python's default `==` for a class without `__eq__`: object identity. -/
def pyDefaultEq (a b : PyObjRef) : Bool := decide (a.addr = b.addr)

/-- Reassigning the charge vector of a constructed ion.  The source class
defines no `__setattr__`, `property` or `__slots__` guard, so attribute
assignment is the plain Python default: it always succeeds and overwrites
the attribute; functionally, the updated record. -/
def setZ (i : PIon) (z' : List ℤ) : PIon := { i with z := z' }

/-- A concrete constructed ion used to instantiate theorems: the result of
building from unsorted input `z = [2, 1]`. -/
def sampleC6 : PIon :=
  { name := "w6", z := [1, 2], pKa := [5, 6], absolute_mobility := [1, 2],
    pKa_ref := [6, 5], absolute_mobility_ref := [2, 1] }

/-! ### Support lemmas for the constructor layer -/

theorem min?_perm_inv {l l' : List ℤ} (h : l.Perm l') : l.min? = l'.min? := by
  rcases hl : l.min? with _ | a
  · rw [List.min?_eq_none_iff] at hl
    subst hl
    have hl' : l' = [] := h.nil_eq.symm
    subst hl'
    rfl
  · rw [List.min?_eq_some_iff (fun a => le_refl a) (fun a b => min_choice a b)
        (fun a b c => le_min_iff)] at hl
    exact ((List.min?_eq_some_iff (fun a => le_refl a) (fun a b => min_choice a b)
      (fun a b c => le_min_iff)).mpr
      ⟨h.mem_iff.mp hl.1, fun b hb => hl.2 b (h.mem_iff.mpr hb)⟩).symm

theorem max?_perm_inv {l l' : List ℤ} (h : l.Perm l') : l.max? = l'.max? := by
  rcases hl : l.max? with _ | a
  · rw [List.max?_eq_none_iff] at hl
    subst hl
    have hl' : l' = [] := h.nil_eq.symm
    subst hl'
    rfl
  · rw [List.max?_eq_some_iff (fun a => le_refl a) (fun a b => max_choice a b)
        (fun a b c => max_le_iff)] at hl
    exact ((List.max?_eq_some_iff (fun a => le_refl a) (fun a b => max_choice a b)
      (fun a b c => max_le_iff)).mpr
      ⟨h.mem_iff.mp hl.1, fun b hb => hl.2 b (h.mem_iff.mpr hb)⟩).symm

theorem ladderOK_perm_inv {l l' : List ℤ} (h : l.Perm l') : ladderOK l = ladderOK l' := by
  unfold ladderOK
  rw [min?_perm_inv h, max?_perm_inv h, List.toFinset_eq_of_perm _ _ h]

theorem ladderOK_of_zero_mem {l : List ℤ} (h0 : (0 : ℤ) ∈ l) : ladderOK l = false := by
  unfold ladderOK
  rcases hmin : l.min? with _ | a
  · rfl
  rcases hmax : l.max? with _ | b
  · rfl
  rw [decide_eq_false_iff_not]
  intro he
  have h0' : (0 : ℤ) ∈ l.toFinset := List.mem_toFinset.mpr h0
  rw [he] at h0'
  exact Finset.not_mem_erase 0 _ h0'

/-- The triple comparison is reflexive in its first component: it implies
`≤` on charges. -/
theorem tripLe_fst_le {a b : ℤ × ℚ × ℚ} (h : tripLe a b) : a.1 ≤ b.1 := by
  unfold tripLe at h
  rcases h with h | ⟨h, _⟩
  · exact le_of_lt h
  · exact le_of_eq h

theorem tripLe_of_fst_lt {a b : ℤ × ℚ × ℚ} (h : a.1 < b.1) : tripLe a b :=
  Or.inl h

/-- Scaling the magnitude argument of `copysign` by a positive factor scales
the result. -/
theorem copysignQ_mul_left {c : ℚ} (hc : 0 ≤ c) (m s : ℚ) :
    copysignQ (c * m) s = c * copysignQ m s := by
  unfold copysignQ
  rcases lt_or_ge s 0 with h | h
  · rw [if_pos h, if_pos h, abs_mul, abs_of_nonneg hc, neg_mul_eq_mul_neg]
  · rw [if_neg (not_lt.mpr h), if_neg (not_lt.mpr h), abs_mul, abs_of_nonneg hc]

/-- Scaling the sign argument of `copysign` by a positive factor does not
change the result. -/
theorem copysignQ_mul_sign {c : ℚ} (hc : 0 < c) (x m : ℚ) :
    copysignQ x (c * m) = copysignQ x m := by
  unfold copysignQ
  have : c * m < 0 ↔ m < 0 := by
    constructor
    · intro h
      by_contra hm
      exact absurd (mul_nonneg (le_of_lt hc) (not_lt.mp hm)) (not_le.mpr h)
    · intro h
      exact mul_neg_of_pos_of_neg hc h
  rw [if_congr this rfl rfl]

/-- An outcome is a failure (an assertion or exception fired). -/
def failed {α : Type} (e : Except String α) : Bool :=
  match e with
  | Except.error _ => true
  | Except.ok _ => false

theorem sorted_fst_perm (z : List ℤ) (w : List (ℚ × ℚ)) (hw : z.length ≤ w.length) :
    ((List.insertionSort tripLe (z.zip w)).map (fun t => t.1)).Perm z := by
  have h1 : (List.insertionSort tripLe (z.zip w)).Perm (z.zip w) :=
    List.perm_insertionSort _ _
  have h2 := h1.map (fun t : ℤ × ℚ × ℚ => t.1)
  rw [show (fun t : ℤ × ℚ × ℚ => t.1) = Prod.fst from rfl, List.map_fst_zip z w hw] at h2
  exact h2

theorem z_sort_fails {s : PIon} (hlz : ladderOK s.z = false)
    (hp : s.pKa.length = s.z.length) (hm : s.absolute_mobility.length = s.z.length) :
    failed (z_sort s) = true := by
  have hw : s.z.length ≤ (s.pKa.zip s.absolute_mobility).length := by
    rw [List.length_zip]
    omega
  have hperm := sorted_fst_perm s.z (s.pKa.zip s.absolute_mobility) hw
  have hfalse : ladderOK ((List.insertionSort tripLe
      (s.z.zip (s.pKa.zip s.absolute_mobility))).map (fun t => t.1)) = false := by
    rw [ladderOK_perm_inv hperm]
    exact hlz
  simp only [z_sort, hfalse, Bool.false_eq_true, if_false, failed]

theorem mob0_length (nu : ℚ → ℚ) (T Tref : ℚ) (mob_ref : List ℚ) :
    (if T = Tref then mob_ref else mob_ref.map (fun m => nu Tref / nu T * m)).length =
      mob_ref.length := by
  split <;> simp

theorem zip_proj_eq (l : List (ℤ × ℚ × ℚ)) :
    (l.map (fun t => t.1)).zip ((l.map (fun t => t.2.1)).zip (l.map (fun t => t.2.2))) = l := by
  induction l with
  | nil => rfl
  | cons a l ih => simpa using ih

theorem zip_pairwise_tripLe {z : List ℤ} {w : List (ℚ × ℚ)}
    (hz : z.Pairwise (· < ·)) (hw : z.length ≤ w.length) :
    (z.zip w).Pairwise tripLe := by
  have h1 : ((z.zip w).map Prod.fst).Pairwise (· < ·) := by
    rw [List.map_fst_zip z w hw]
    exact hz
  exact (List.pairwise_map.mp h1).imp (fun h => tripLe_of_fst_lt h)

/-- When the charge states come in strictly ascending order and the charge
ladder is complete, `z_sort` changes nothing. -/
theorem z_sort_sorted_input {s : PIon} (hsorted : s.z.Pairwise (· < ·))
    (hp : s.pKa.length = s.z.length) (hm : s.absolute_mobility.length = s.z.length)
    (hladder : ladderOK s.z = true) :
    z_sort s = Except.ok s := by
  have hwlen : s.z.length ≤ (s.pKa.zip s.absolute_mobility).length := by
    rw [List.length_zip]
    omega
  have hsortedT : List.insertionSort tripLe (s.z.zip (s.pKa.zip s.absolute_mobility)) =
      s.z.zip (s.pKa.zip s.absolute_mobility) :=
    List.Sorted.insertionSort_eq (zip_pairwise_tripLe hsorted hwlen)
  have hfst : (s.z.zip (s.pKa.zip s.absolute_mobility)).map (fun t => t.1) = s.z := by
    rw [show (fun t : ℤ × ℚ × ℚ => t.1) = Prod.fst from rfl, List.map_fst_zip _ _ hwlen]
  have hsnd : (s.z.zip (s.pKa.zip s.absolute_mobility)).map Prod.snd =
      s.pKa.zip s.absolute_mobility :=
    List.map_snd_zip _ _ (by rw [List.length_zip]; omega)
  have hpKa : (s.z.zip (s.pKa.zip s.absolute_mobility)).map (fun t => t.2.1) = s.pKa := by
    rw [show (fun t : ℤ × ℚ × ℚ => t.2.1) = (Prod.fst ∘ Prod.snd) from rfl, ← List.map_map,
      hsnd, List.map_fst_zip _ _ (le_of_eq (hp.trans hm.symm))]
  have hmob : (s.z.zip (s.pKa.zip s.absolute_mobility)).map (fun t => t.2.2) =
      s.absolute_mobility := by
    rw [show (fun t : ℤ × ℚ × ℚ => t.2.2) = (Prod.snd ∘ Prod.snd) from rfl, ← List.map_map,
      hsnd, List.map_snd_zip _ _ (le_of_eq (hm.trans hp.symm))]
  simp only [z_sort, hsortedT, hfst, hpKa, hmob, hladder, if_true]

/-- Rescaling mobilities by a positive factor does not change the outcome of
the sign check. -/
theorem signs_all_scaled {z : List ℤ} {mob : List ℚ} {c : ℚ} (hc : 0 < c)
    (h : ((z.zip mob).all fun p => decide (copysignQ (p.1 : ℚ) p.2 = (p.1 : ℚ))) = true) :
    ((z.zip (mob.map (fun m => c * m))).all
      fun p => decide (copysignQ (p.1 : ℚ) p.2 = (p.1 : ℚ))) = true := by
  rw [List.all_eq_true] at h ⊢
  intro x hx
  rw [List.zip_map_right] at hx
  rcases List.mem_map.mp hx with ⟨p, hp, hpx⟩
  subst hpx
  have := h p hp
  rw [decide_eq_true_eq] at this ⊢
  show copysignQ (p.1 : ℚ) (c * p.2) = (p.1 : ℚ)
  rw [copysignQ_mul_sign hc]
  exact this

/-! ### Support lemmas for the real layer -/

theorem activity_coefficient_pos (zi : ℤ) (I : ℝ) : 0 < activity_coefficient zi I :=
  Real.rpow_pos_of_pos (by norm_num) _

theorem cH_pos (pH I : ℝ) : 0 < cH pH I :=
  div_pos (Real.rpow_pos_of_pos (by norm_num) _) (activity_coefficient_pos 1 I)

theorem Ka_eff_pos (zi : ℤ) (pKa_i I : ℝ) : 0 < Ka_eff zi pKa_i I :=
  Real.rpow_pos_of_pos (by norm_num) _

theorem L_pos (states : List (ℤ × ℝ)) (zi : ℤ) (I : ℝ) : 0 < L states zi I := by
  apply List.prod_pos
  intro a ha
  rcases List.mem_map.mp ha with ⟨p, _, hpa⟩
  exact hpa ▸ Ka_eff_pos p.1 p.2 I

theorem L_neutral (states : List (ℤ × ℝ)) (I : ℝ) : L states 0 I = 1 := by
  unfold L
  rw [List.filter_eq_nil_iff.mpr]
  · rfl
  · intro p _
    rw [decide_eq_true_eq]
    omega

theorem term_pos (states : List (ℤ × ℝ)) (pH I : ℝ) (zi : ℤ) :
    0 < L states zi I * cH pH I ^ zi :=
  mul_pos (L_pos states zi I) (zpow_pos (cH_pos pH I) zi)

theorem sum_map_div {α : Type} (l : List α) (g : α → ℝ) (d : ℝ) :
    (l.map (fun x => g x / d)).sum = (l.map g).sum / d := by
  induction l with
  | nil => simp
  | cons a l ih => simp [ih, add_div]

theorem z0list_perm (z : List ℤ) : (z0list z).Perm (0 :: z) :=
  List.perm_insertionSort _ _

/-- The transcribed body raises on every call: the first `zip` receives the
uncalled bound method `obj.z0`. -/
theorem ionization_fraction_at_raises (states : List (ℤ × ℝ)) (pH I : ℝ) :
    ionization_fraction_at states pH I =
      Except.error "TypeError: zip argument 2 must support iteration" := rfl

theorem denom_pos (states : List (ℤ × ℝ)) (pH I : ℝ) :
    0 < ((z0list (states.map Prod.fst)).map
      (fun k => L states k I * cH pH I ^ k)).sum := by
  apply List.sum_pos
  · intro x hx
    rcases List.mem_map.mp hx with ⟨zi, _, hzx⟩
    exact hzx ▸ term_pos states pH I zi
  · intro hnil
    rw [List.map_eq_nil_iff] at hnil
    have h2 := z0list_perm (states.map Prod.fst)
    rw [hnil] at h2
    exact List.cons_ne_nil _ _ h2.nil_eq.symm

/-- The specification's fraction vector is mathematically well-behaved: for
an ion whose charge states are all non-zero, each prescribed fraction is
positive and they sum to less than `1` (the neutral term contributes `1` to
the denominator).  This is what the spec's claims assert the code should
return. -/
theorem ionization_fraction_spec_bounds (states : List (ℤ × ℝ)) (pH I : ℝ)
    (h0 : ∀ p ∈ states, p.1 ≠ (0 : ℤ)) :
    (∀ x ∈ ionization_fraction_spec states pH I, 0 < x) ∧
    (ionization_fraction_spec states pH I).sum < 1 := by
  unfold ionization_fraction_spec
  constructor
  · intro x hx
    rcases List.mem_map.mp hx with ⟨zi, _, hzx⟩
    exact hzx ▸ div_pos (term_pos states pH I zi) (denom_pos states pH I)
  · rw [sum_map_div]
    set zs := states.map Prod.fst with hzs
    set t := fun zi : ℤ => L states zi I * cH pH I ^ zi with ht
    have hq : ∀ zi ∈ zs, (decide (zi ≠ 0)) = true := by
      intro zi hzi
      rcases List.mem_map.mp hzi with ⟨p, hp, hpz⟩
      rw [decide_eq_true_eq]
      exact hpz ▸ h0 p hp
    have hfperm : ((z0list zs).filter (fun zi => decide (zi ≠ 0))).Perm zs := by
      have h1 := (z0list_perm zs).filter (fun zi => decide (zi ≠ 0))
      rw [List.filter_cons, if_neg (by decide)] at h1
      rwa [List.filter_eq_self.mpr hq] at h1
    have hnum : (((z0list zs).filter (fun zi => decide (zi ≠ 0))).map t).sum =
        (zs.map t).sum := (hfperm.map t).sum_eq
    have hden : ((z0list zs).map t).sum = 1 + (zs.map t).sum := by
      rw [((z0list_perm zs).map t).sum_eq]
      have ht0 : t 0 = 1 := by
        rw [ht]
        simp [L_neutral]
      simp [ht0]
    have hS : 0 ≤ (zs.map t).sum := by
      apply List.sum_nonneg
      intro x hx
      rcases List.mem_map.mp hx with ⟨zi, _, hzx⟩
      exact le_of_lt (hzx ▸ term_pos states pH I zi)
    rw [hnum, div_lt_one (by rw [← hden] at *; exact denom_pos states pH I)]
    rw [hden]
    linarith


theorem z_sort_ok_facts {s t : PIon} (h : z_sort s = Except.ok t) :
    t.z = (List.insertionSort tripLe
      (s.z.zip (s.pKa.zip s.absolute_mobility))).map (fun x => x.1) ∧
    t.pKa = (List.insertionSort tripLe
      (s.z.zip (s.pKa.zip s.absolute_mobility))).map (fun x => x.2.1) ∧
    t.absolute_mobility = (List.insertionSort tripLe
      (s.z.zip (s.pKa.zip s.absolute_mobility))).map (fun x => x.2.2) := by
  simp only [z_sort] at h
  split_ifs at h with hOK
  rw [Except.ok.injEq] at h
  subst h
  exact ⟨rfl, rfl, rfl⟩

/-! ## Claim theorems -/

/-- The dielectric constant cancels out of `get_Adh`: because the source
assigns `d_ref = dielectric(T)` instead of `dielectric(T_ref)`, the result
is `0.5102·((T+273.15)/298.15)^(3/2)` for every dielectric model. -/
theorem get_Adh_closed_form (dielectric : ℝ → ℝ) (T : ℝ)
    (hT : -273.15 < T) (hd : dielectric T ≠ 0) :
    get_Adh dielectric T = 0.5102 * ((T + 273.15) / (25 + 273.15)) ^ (1.5 : ℝ) := by
  have hTpos : (0 : ℝ) < T + 273.15 := by linarith
  simp only [get_Adh]
  have hbase : (25 + 273.15) * dielectric T / (T + 273.15) / dielectric T =
      ((T + 273.15) / (25 + 273.15))⁻¹ := by
    rw [div_div, inv_div, mul_div_mul_right _ _ hd]
  rw [hbase, Real.rpow_neg (inv_nonneg.mpr (by positivity)),
    Real.inv_rpow (by positivity), inv_inv]

/-- The value `get_Adh` computes is monotone increasing in temperature (for
any dielectric model), which is the half of the claim the code satisfies. -/
theorem get_Adh_mono (dielectric : ℝ → ℝ) (T₁ T₂ : ℝ)
    (h1 : -273.15 < T₁) (h12 : T₁ < T₂)
    (hd1 : dielectric T₁ ≠ 0) (hd2 : dielectric T₂ ≠ 0) :
    get_Adh dielectric T₁ < get_Adh dielectric T₂ := by
  rw [get_Adh_closed_form dielectric T₁ h1 hd1,
    get_Adh_closed_form dielectric T₂ (by linarith) hd2]
  have hb : (T₁ + 273.15) / (25 + 273.15) < (T₂ + 273.15) / (25 + 273.15) := by
    gcongr
  exact mul_lt_mul_of_pos_left
    (Real.rpow_lt_rpow (div_nonneg (by linarith) (by norm_num)) hb (by norm_num))
    (by norm_num)

/-- C2: evaluated at `T = 50` with a (spec-conformant, strictly decreasing)
dielectric model, `get_Adh` returns `0.5102·((50+273.15)/(25+273.15))^(3/2)`
— the dielectric constant cancels because the source assigns
`d_ref = dielectric(T)` rather than `dielectric(T_ref)` and uses the
exponent `-1.5` — and this differs from the specified
`A_ref·((T_ref+273.15)·ε_ref/((T+273.15)·ε(T)))^(3/2)`. -/
theorem C2_get_Adh_deviates :
    get_Adh dielectric_model 50 =
      0.5102 * ((50 + 273.15) / (25 + 273.15)) ^ (1.5 : ℝ) ∧
    get_Adh dielectric_model 50 ≠ debye_huckel_A dielectric_model 50 := by
  have hd50 : dielectric_model 50 = 68 := by
    simp only [dielectric_model]
    norm_num
  have hd25 : dielectric_model 25 = 78 := by
    simp only [dielectric_model]
    norm_num
  have hform : get_Adh dielectric_model 50 =
      0.5102 * ((50 + 273.15) / (25 + 273.15)) ^ (1.5 : ℝ) :=
    get_Adh_closed_form dielectric_model 50 (by norm_num) (by rw [hd50]; norm_num)
  refine ⟨hform, ?_⟩
  rw [hform]
  simp only [debye_huckel_A, hd25, hd50]
  apply ne_of_gt
  apply mul_lt_mul_of_pos_left ?_ (by norm_num : (0 : ℝ) < 0.5102)
  apply Real.rpow_lt_rpow (by positivity) ?_ (by norm_num)
  rw [div_lt_div_iff₀ (by norm_num) (by norm_num)]
  norm_num

/-- C3 counterexample: the claim as stated fails.  `z = [2, 2]` is not a
strictly consecutive sequence of integers, yet construction succeeds,
because the source validates the SET of charge states
(`set(z) ^ (set(range(min,max+1)) - {0})`), which cannot see duplicates. -/
theorem C3_counterexample_duplicate :
    ¬ List.Chain' (fun a b : ℤ => b = a + 1) [2, 2] ∧
    ionInit (fun _ => 1) "dup" [2, 2] [5, 6] [1, 1] 25 25 =
      Except.ok ({ name := "dup", z := [2, 2], pKa := [5, 6],
                   absolute_mobility := [1, 1], pKa_ref := [5, 6],
                   absolute_mobility_ref := [1, 1] } : PIon) := by
  constructor
  · intro h
    rcases List.chain'_cons.mp h with ⟨h21, _⟩
    omega
  · decide

/-- C3 (amended): constructing an `Ion` whose set of charge states does not
cover exactly the integers of `[min z, max z]` with `0` removed (e.g.
`z = [1, 3]`), or whose charge list contains `0`, or whose pKa or
absolute-mobility vector has a different length than `z`, fails at
construction time (the assertion taxonomy the spec calls `DomainError`);
the failure happens inside `__init__`, never deferred.  (A charge list that
duplicates a state but still covers the range, e.g. `[2, 2]`, is accepted.) -/
theorem C3_construction_rejects_malformed (nu : ℚ → ℚ) (nm : String) (z : List ℤ)
    (pKa_ref mob_ref : List ℚ) (T Tref : ℚ)
    (hbad : pKa_ref.length ≠ z.length ∨ mob_ref.length ≠ z.length ∨ (0 : ℤ) ∈ z ∨
      ladderOK z = false) :
    failed (ionInit nu nm z pKa_ref mob_ref T Tref) = true := by
  by_cases h1 : pKa_ref.length ≠ z.length
  · simp [ionInit, correct_pKa, ite_self, h1, failed]
  by_cases h2 : mob_ref.length ≠ z.length
  · simp [ionInit, correct_pKa, ite_self, h1, h2, mob0_length, failed]
  push_neg at h1 h2
  have hlz : ladderOK z = false := by
    rcases hbad with hb | hb | hb | hb
    · exact absurd h1 hb
    · exact absurd h2 hb
    · exact ladderOK_of_zero_mem hb
    · exact hb
  simp only [ionInit, correct_pKa, ite_self, h1, h2, mob0_length, ne_eq,
    not_true_eq_false, if_false]
  apply z_sort_fails
  · exact hlz
  · exact h1
  · dsimp only
    split_ifs <;> simp [h2, List.length_zip]

/-- C3 witness: `z = [1, 3]` skips the charge state `2`; construction
fails. -/
theorem C3_witness :
    ladderOK [1, 3] = false ∧
    failed (ionInit (fun _ => 1) "skip" [1, 3] [2, 3] [1, 1] 25 25) = true :=
  ⟨by decide,
    C3_construction_rejects_malformed (fun _ => 1) "skip" [1, 3] [2, 3] [1, 1] 25 25
      (Or.inr (Or.inr (Or.inr (by decide))))⟩

/-- C1: the code never returns the claimed fractions.  At lines 31 and 36
of `ionization_fraction.py` the source reads `obj.z0` — a bound method,
never called — and hands it to `zip`, which raises `TypeError`; the
module's own demo call (hydrochloric acid at `pH = 7`) fails, and the
returned value is never the prescribed `ionization_fraction_spec` vector. -/
theorem C1_zip_type_error :
    (∀ (states : List (ℤ × ℝ)) (pH I : ℝ),
      ionization_fraction states none none (some pH) (some I) =
        Except.error "TypeError: zip argument 2 must support iteration") ∧
    ionization_fraction_at [((-1 : ℤ), (-2 : ℝ))] 7 0 ≠
      Except.ok (ionization_fraction_spec [((-1 : ℤ), (-2 : ℝ))] 7 0) := by
  refine ⟨fun _ _ _ => rfl, ?_⟩
  intro hc
  rw [ionization_fraction_at_raises] at hc
  exact Except.noConfusion hc

/-- C5: no call of `ionization_fraction`, whatever the arguments and
context, ever returns a list of fractions — every path ends in an
exception (`AttributeError` during argument resolution or `TypeError` at
`zip(L, obj.z0)`) — so there are no returned fractions to be positive or to
sum below `1`.  (The prescribed vector does satisfy those bounds:
`ionization_fraction_spec_bounds`.) -/
theorem C5_every_call_errors (states : List (ℤ × ℝ))
    (ctx_pH ctx_I pHopt Iopt : Option ℝ) :
    failed (ionization_fraction states ctx_pH ctx_I pHopt Iopt) = true := by
  unfold ionization_fraction
  rcases hp : resolve_pH ctx_pH pHopt with e | pH
  · rfl
  · rcases hi : resolve_I ctx_I Iopt with e | I
    · rfl
    · rfl

/-- C10: evaluation at the failing input.  On an ion outside any `Solution`
context the `_pH`/`_I` attributes were never created, so a call with no pH
argument raises `AttributeError` at `assert obj._pH` (not the clean
assertion the claim describes), and a call with a pH but no ionic-strength
argument raises `AttributeError` at `if obj._I:` instead of succeeding
with `I = 0`. -/
theorem C10_attribute_error (states : List (ℤ × ℝ)) (pH : ℝ) (Iopt : Option ℝ) :
    ionization_fraction states none none none Iopt =
      Except.error "AttributeError: _pH" ∧
    ionization_fraction states none none (some pH) none =
      Except.error "AttributeError: _I" :=
  ⟨rfl, rfl⟩

/-- C4: for otherwise well-formed input whose mobility signs disagree with
the charge signs somewhere, construction does not fail: the warning flag is
set and each stored mobility is the reference magnitude with the sign of its
charge (elementwise `copysign`); and, the construction being a pure
function, repeating the same malformed input gives the identical result. -/
theorem C4_sign_mismatch_corrected (nu : ℚ → ℚ) (nm : String) (z : List ℤ)
    (pKa_ref mob_ref : List ℚ)
    (h1 : pKa_ref.length = z.length) (h2 : mob_ref.length = z.length)
    (hsorted : z.Pairwise (· < ·)) (hladder : ladderOK z = true)
    (hmis : ((z.zip mob_ref).all
      (fun p => decide (copysignQ (p.1 : ℚ) p.2 = (p.1 : ℚ)))) = false) :
    ionInit nu nm z pKa_ref mob_ref 25 25 =
      Except.ok ({ name := nm, z := z, pKa := pKa_ref,
                   absolute_mobility := (z.zip mob_ref).map
                     (fun p => copysignQ p.2 (p.1 : ℚ)),
                   pKa_ref := pKa_ref, absolute_mobility_ref := mob_ref,
                   warned := true } : PIon) ∧
    ionInit nu nm z pKa_ref mob_ref 25 25 = ionInit nu nm z pKa_ref mob_ref 25 25 := by
  refine ⟨?_, rfl⟩
  simp only [ionInit, correct_pKa, ite_self, h1, h2, ne_eq, not_true_eq_false,
    if_false, eq_self_iff_true, if_true, hmis, Bool.false_eq_true, Bool.not_false]
  apply z_sort_sorted_input
  · exact hsorted
  · exact h1
  · simp [List.length_zip, h2]
  · exact hladder

/-- C4 witness: `z = [1, 2]` with mobilities `[-1, 4]` — the first sign is
wrong; construction succeeds with the sign forced and the warning set. -/
theorem C4_witness :
    (([1, 2] : List ℤ).Pairwise (· < ·)) ∧ ladderOK [1, 2] = true ∧
    ((([1, 2] : List ℤ).zip ([-1, 4] : List ℚ)).all
      (fun p => decide (copysignQ (p.1 : ℚ) p.2 = (p.1 : ℚ)))) = false ∧
    ionInit (fun _ => 1) "w4" [1, 2] [7, 8] [-1, 4] 25 25 =
      Except.ok ({ name := "w4", z := [1, 2], pKa := [7, 8],
                   absolute_mobility := (([1, 2] : List ℤ).zip ([-1, 4] : List ℚ)).map
                     (fun p => copysignQ p.2 (p.1 : ℚ)),
                   pKa_ref := [7, 8], absolute_mobility_ref := [-1, 4],
                   warned := true } : PIon) :=
  ⟨by decide, by decide, by decide,
    (C4_sign_mismatch_corrected (fun _ => 1) "w4" [1, 2] [7, 8] [-1, 4] rfl rfl
      (by decide) (by decide) (by decide)).1⟩

/-- C6 counterexample: the claim as stated fails.  Construction from
`z = [1, 1]` succeeds (the set-based ladder check cannot see duplicates),
and the resulting charge list is not strictly ascending. -/
theorem C6_counterexample_duplicate :
    ionInit (fun _ => 1) "dupz" [1, 1] [2, 3] [1, 1] 25 25 =
      Except.ok ({ name := "dupz", z := [1, 1], pKa := [2, 3],
                   absolute_mobility := [1, 1], pKa_ref := [2, 3],
                   absolute_mobility_ref := [1, 1] } : PIon) ∧
    ¬ ([1, 1] : List ℤ).Pairwise (· < ·) := by
  constructor
  · decide
  · intro hp
    rcases List.pairwise_cons.mp hp with ⟨h11, _⟩
    exact absurd (h11 1 (by simp)) (by omega)

/-- C6 (amended): after any successful construction the charge list is
sorted ascending — strictly whenever the input charge states are distinct
(the validation admits duplicates such as `[1, 1]`, where ties remain) —
and, for reference-temperature construction with consistent signs, the
triples `(z, pKa, absolute_mobility)` of the result are a permutation of
the zipped constructor arguments: each charge state keeps the acidity
constant and mobility it was paired with. -/
theorem C6_sorted_and_paired (nu : ℚ → ℚ) (nm : String) (z : List ℤ)
    (pKa_ref mob_ref : List ℚ) (T Tref : ℚ) (s : PIon)
    (h : ionInit nu nm z pKa_ref mob_ref T Tref = Except.ok s) :
    s.z.Pairwise (· ≤ ·) ∧
    (z.Nodup → s.z.Pairwise (· < ·)) ∧
    (T = Tref →
      ((z.zip mob_ref).all
        (fun p => decide (copysignQ (p.1 : ℚ) p.2 = (p.1 : ℚ)))) = true →
      (s.z.zip (s.pKa.zip s.absolute_mobility)).Perm (z.zip (pKa_ref.zip mob_ref))) := by
  simp only [ionInit, correct_pKa, ite_self] at h
  by_cases h1 : pKa_ref.length ≠ z.length
  · rw [if_pos h1] at h
    exact absurd h (by simp)
  rw [if_neg h1] at h
  by_cases h2 : (if T = Tref then mob_ref
      else mob_ref.map fun m => nu Tref / nu T * m).length ≠ z.length
  · rw [if_pos h2] at h
    exact absurd h (by simp)
  rw [if_neg h2] at h
  push_neg at h1 h2
  rw [mob0_length] at h2
  set MOB := (if ((z.zip (if T = Tref then mob_ref
        else mob_ref.map fun m => nu Tref / nu T * m)).all
          (fun p => decide (copysignQ (p.1 : ℚ) p.2 = (p.1 : ℚ)))) = true
      then (if T = Tref then mob_ref else mob_ref.map fun m => nu Tref / nu T * m)
      else (z.zip (if T = Tref then mob_ref
        else mob_ref.map fun m => nu Tref / nu T * m)).map
          (fun p => copysignQ p.2 (p.1 : ℚ))) with hMOB
  obtain ⟨hz, hp, hm⟩ := z_sort_ok_facts h
  dsimp only at hz hp hm
  have hmoblen : MOB.length = z.length := by
    rw [hMOB]
    split_ifs <;> simp [h2, List.length_zip]
  have hle : s.z.Pairwise (· ≤ ·) := by
    rw [hz]
    exact List.pairwise_map.mpr
      ((List.sorted_insertionSort tripLe _).imp (fun hab => tripLe_fst_le hab))
  refine ⟨hle, ?_, ?_⟩
  · intro hnd
    have hperm := sorted_fst_perm z (pKa_ref.zip MOB) (by rw [List.length_zip]; omega)
    rw [← hz] at hperm
    have hnd2 : s.z.Nodup := hperm.symm.nodup hnd
    exact (hle.and hnd2).imp (fun hab => lt_of_le_of_ne hab.1 hab.2)
  · intro hT hsign
    subst hT
    simp only [eq_self_iff_true, if_true, hsign] at hMOB
    rw [hz, hp, hm, zip_proj_eq, hMOB]
    exact List.perm_insertionSort _ _

/-- C6 witness: building from unsorted `z = [2, 1]` succeeds; the stored
charge list `[1, 2]` is strictly ascending and the triples are a
permutation of the zipped constructor arguments. -/
theorem C6_witness :
    ionInit (fun _ => 1) "w6" [2, 1] [6, 5] [2, 1] 25 25 = Except.ok sampleC6 ∧
    (sampleC6.z.Pairwise (· ≤ ·) ∧
     (([2, 1] : List ℤ).Nodup → sampleC6.z.Pairwise (· < ·)) ∧
     ((25 : ℚ) = 25 →
       ((([2, 1] : List ℤ).zip ([2, 1] : List ℚ)).all
         (fun p => decide (copysignQ (p.1 : ℚ) p.2 = (p.1 : ℚ)))) = true →
       (sampleC6.z.zip (sampleC6.pKa.zip sampleC6.absolute_mobility)).Perm
         (([2, 1] : List ℤ).zip (([6, 5] : List ℚ).zip ([2, 1] : List ℚ))))) :=
  ⟨by decide,
    C6_sorted_and_paired (fun _ => 1) "w6" [2, 1] [6, 5] [2, 1] 25 25 sampleC6 (by decide)⟩

/-- C7: under Walden's rule (with the external viscosity positive at the two
temperatures), construction at `T ≠ T_ref` stores
`viscosity(T_ref)/viscosity(T) · absolute_mobility_ref[i]` for each state
and leaves `pKa = pKa_ref` (no enthalpy data); construction at `T = T_ref`
stores the reference vectors unchanged. -/
theorem C7_temperature_correction (nu : ℚ → ℚ) (nm : String) (z : List ℤ)
    (pKa_ref mob_ref : List ℚ) (T Tref : ℚ)
    (h1 : pKa_ref.length = z.length) (h2 : mob_ref.length = z.length)
    (hsorted : z.Pairwise (· < ·)) (hladder : ladderOK z = true)
    (hnuT : 0 < nu T) (hnuTref : 0 < nu Tref)
    (hsign : ((z.zip mob_ref).all
      (fun p => decide (copysignQ (p.1 : ℚ) p.2 = (p.1 : ℚ)))) = true) :
    (T ≠ Tref → ionInit nu nm z pKa_ref mob_ref T Tref =
      Except.ok ({ name := nm, z := z, pKa := pKa_ref,
                   absolute_mobility := mob_ref.map (fun m => nu Tref / nu T * m),
                   pKa_ref := pKa_ref,
                   absolute_mobility_ref := mob_ref } : PIon)) ∧
    (T = Tref → ionInit nu nm z pKa_ref mob_ref T Tref =
      Except.ok ({ name := nm, z := z, pKa := pKa_ref,
                   absolute_mobility := mob_ref,
                   pKa_ref := pKa_ref,
                   absolute_mobility_ref := mob_ref } : PIon)) := by
  constructor
  · intro hT
    have hscaled := signs_all_scaled (div_pos hnuTref hnuT) hsign
    simp only [ionInit, correct_pKa, if_neg hT, h1, h2, List.length_map, ne_eq,
      not_true_eq_false, if_false, hscaled, if_true]
    apply z_sort_sorted_input
    · exact hsorted
    · exact h1
    · simp [h2]
    · exact hladder
  · intro hT
    subst hT
    simp only [ionInit, correct_pKa, ite_self, h1, h2, ne_eq, not_true_eq_false,
      if_false, eq_self_iff_true, if_true, hsign]
    apply z_sort_sorted_input
    · exact hsorted
    · exact h1
    · simp [h2]
    · exact hladder

/-- C7 witness: with viscosity `2` at `T = 20` and `4` at `T_ref = 25`, an
ion built at `20 °C` stores mobilities rescaled by `ν(25)/ν(20)`. -/
theorem C7_witness :
    (0 : ℚ) < (fun t : ℚ => if t = 20 then (2 : ℚ) else 4) 20 ∧
    (0 : ℚ) < (fun t : ℚ => if t = 20 then (2 : ℚ) else 4) 25 ∧
    (20 : ℚ) ≠ 25 ∧
    ionInit (fun t : ℚ => if t = 20 then (2 : ℚ) else 4) "w7" [1] [5] [2] 20 25 =
      Except.ok ({ name := "w7", z := [1], pKa := [5],
                   absolute_mobility := ([2] : List ℚ).map
                     (fun m => (fun t : ℚ => if t = 20 then (2 : ℚ) else 4) 25 /
                       (fun t : ℚ => if t = 20 then (2 : ℚ) else 4) 20 * m),
                   pKa_ref := [5],
                   absolute_mobility_ref := [2] } : PIon) :=
  ⟨by decide, by decide, by decide,
    (C7_temperature_correction (fun t : ℚ => if t = 20 then (2 : ℚ) else 4) "w7"
      [1] [5] [2] 20 25 rfl rfl (by decide) (by decide) (by decide) (by decide)
      (by decide)).1 (by decide)⟩

/-- C8: evaluation of the code at the failing input.  The snapshot class
defines no `__eq__`, so `==` is Python's default object identity: two
separately constructed ions with identical reference data (equal `strip`)
compare unequal, and in general the comparison depends only on identity,
never on name, `z`, reference pKa, reference mobility or `dH`/`dCp`. -/
theorem C8_default_eq_is_identity :
    strip (PyObjRef.mk 0 sampleC6).val = strip (PyObjRef.mk 1 sampleC6).val ∧
    pyDefaultEq (PyObjRef.mk 0 sampleC6) (PyObjRef.mk 1 sampleC6) = false ∧
    (∀ a b : PyObjRef, pyDefaultEq a b = true ↔ a.addr = b.addr) := by
  refine ⟨rfl, rfl, ?_⟩
  intro a b
  simp [pyDefaultEq]

/-- C9: evaluation of the code at the failing input.  Reassigning the charge
vector of a constructed ion always succeeds and overwrites the field —
the snapshot class has no attribute protection whatsoever — contradicting
the claimed attribute-protection error. -/
theorem C9_assignment_never_fails : ∀ (i : PIon) (z2 : List ℤ), (setZ i z2).z = z2 :=
  fun _ _ => rfl

end Ionize
